import Mathlib

/-! Verification development for the keboola/esignature repository.

This file gives a shallow embedding of `src/signer.py` (the multi-signature
incremental signing pipeline) and of the coordinate conversion in
`src/app.py`, and proves the specification claims C1–C10 about it.

Modelling conventions:
* Python byte buffers holding a PDF are modelled by the `Doc` structure: the
  list of pages (each with its geometry and the drawing operations burned
  into it), the list of cryptographic signature fields, an encryption flag,
  and the history of pipeline events applied to the buffer.  Each stage
  consumes one `Doc` and produces a new one, mirroring the source's
  copy-on-write byte-buffer discipline.
* Python exceptions are modelled with `Except PdfError`.
* Effects are made explicit parameters: `datetime.now()` becomes the `now`
  string argument; whether the ornamental font file can be loaded becomes the
  `fontLoads : Bool` argument.
* Python text is modelled over the alphabet actually used by the program:
  ASCII plus the Czech letters of `normalize_text`'s table.  `str.lower`,
  `str.upper` and `str.isalpha` are modelled on that alphabet.
-/

namespace ESignature

/-- Signature appearance constants, `src/signer.py` lines 22–25. -/
def SIGNATURE_WIDTH : ℚ := 150

/-- Default height of a full signature box (`src/signer.py` line 23). -/
def SIGNATURE_HEIGHT : ℚ := 50

/-- Default width of an initials box (`src/signer.py` line 24). -/
def INITIALS_WIDTH : ℚ := 50

/-- Default height of an initials box (`src/signer.py` line 25). -/
def INITIALS_HEIGHT : ℚ := 35

/-! Python string primitives, modelled on the Latin + Czech alphabet. -/

/-- The lowercase Czech letters appearing in `normalize_text`'s table. -/
def czechLowercase : List Char :=
  ['á', 'č', 'ď', 'é', 'ě', 'í', 'ň', 'ó', 'ř', 'š', 'ť', 'ú', 'ů', 'ý', 'ž']

/-- The uppercase Czech letters appearing in `normalize_text`'s table. -/
def czechUppercase : List Char :=
  ['Á', 'Č', 'Ď', 'É', 'Ě', 'Í', 'Ň', 'Ó', 'Ř', 'Š', 'Ť', 'Ú', 'Ů', 'Ý', 'Ž']

/-- Python `str.lower` on one character (ASCII plus the Czech letters). -/
def pyLower (c : Char) : Char :=
  match c with
  | 'Á' => 'á' | 'Č' => 'č' | 'Ď' => 'ď' | 'É' => 'é' | 'Ě' => 'ě' | 'Í' => 'í'
  | 'Ň' => 'ň' | 'Ó' => 'ó' | 'Ř' => 'ř' | 'Š' => 'š' | 'Ť' => 'ť' | 'Ú' => 'ú'
  | 'Ů' => 'ů' | 'Ý' => 'ý' | 'Ž' => 'ž'
  | _ => c.toLower

/-- Python `str.upper` on one character (ASCII plus the Czech letters). -/
def pyUpper (c : Char) : Char :=
  match c with
  | 'á' => 'Á' | 'č' => 'Č' | 'ď' => 'Ď' | 'é' => 'É' | 'ě' => 'Ě' | 'í' => 'Í'
  | 'ň' => 'Ň' | 'ó' => 'Ó' | 'ř' => 'Ř' | 'š' => 'Š' | 'ť' => 'Ť' | 'ú' => 'Ú'
  | 'ů' => 'Ů' | 'ý' => 'Ý' | 'ž' => 'Ž'
  | _ => c.toUpper

/-- Python `str.isalpha` on one character (ASCII plus the Czech letters). -/
def pyIsAlpha (c : Char) : Bool :=
  c.isAlpha || czechLowercase.contains c || czechUppercase.contains c

/-- Python whitespace test, for `str.split()` with no argument. -/
def pyIsSpace (c : Char) : Bool :=
  c = ' ' || c = '\t' || c = '\n' || c = '\r'

/-- Fuel-driven worker for `pyReplaceEmpty`: scan left to right, and whenever
the pattern is a prefix of the rest of the text, drop it (Python
`str.replace(pat, '')` semantics, non-overlapping, leftmost-first).  The fuel
starts at the text length and each step consumes at least one character, so
the fuel never runs out on the initial call. -/
def pyReplaceEmptyAux (pat : List Char) : Nat → List Char → List Char
  | _, [] => []
  | 0, s => s
  | fuel + 1, c :: cs =>
    if pat ≠ [] ∧ pat.isPrefixOf (c :: cs) then
      pyReplaceEmptyAux pat fuel (List.drop (pat.length - 1) cs)
    else
      c :: pyReplaceEmptyAux pat fuel cs

/-- Python `s.replace(pat, '')`: remove every occurrence of `pat` from `s`,
scanning left to right. -/
def pyReplaceEmpty (s pat : List Char) : List Char :=
  pyReplaceEmptyAux pat s.length s

/-- Worker for `pySplit`: split on whitespace runs, discarding empty pieces,
accumulating the current word in reverse. -/
def pySplitAux : List Char → List Char → List (List Char)
  | [], acc => if acc = [] then [] else [acc.reverse]
  | c :: cs, acc =>
    if pyIsSpace c then
      if acc = [] then pySplitAux cs [] else acc.reverse :: pySplitAux cs []
    else
      pySplitAux cs (c :: acc)

/-- Python `str.split()` with no argument: split on any whitespace run and
drop empty pieces. -/
def pySplit (s : List Char) : List (List Char) :=
  pySplitAux s []

/-! `get_initials` and `normalize_text`, `src/signer.py` lines 117–156. -/

/-- The fixed academic-title list of `get_initials`
(`src/signer.py` lines 127–128), in source order. -/
def titles : List (List Char) :=
  ["ing.".data, "mgr.".data, "bc.".data, "mudr.".data, "judr.".data,
   "phdr.".data, "rndr.".data, "doc.".data, "prof.".data, "ph.d.".data,
   "csc.".data, "drsc.".data, "mba".data, "dis.".data]

/-- Lowercase the name and strip each academic title in turn
(`name_lower = name.lower()` followed by the `replace` loop). -/
def strip_titles (name : List Char) : List Char :=
  titles.foldl pyReplaceEmpty (name.map pyLower)

/-- The sequence of initials letters derived from a name: split the
title-stripped lowercase name on whitespace and take the uppercased first
character of each word whose first character is alphabetic.  This is the
generator expression on `src/signer.py` line 136; `str.split()` already
returns nonempty stripped words, so the `w.strip()`/`if w` parts are
identities. -/
def initials_letters (name : String) : List Char :=
  (pySplit (strip_titles name.data)).filterMap fun w =>
    match w with
    | [] => none
    | c :: _ => if pyIsAlpha c then some (pyUpper c) else none

/-- `get_initials` (`src/signer.py` lines 117–138): initials from a name,
with `"?"` when no alphabetic initial can be derived. -/
def get_initials (name : String) : String :=
  let initials := initials_letters name
  if initials.isEmpty then "?" else ⟨initials⟩

/-- The character table of `normalize_text` (`src/signer.py` lines 146–153).
The source applies single-character `str.replace` calls sequentially; since
every source character is distinct and no replacement character occurs among
the source characters, this equals a character-wise map. -/
def normChar (c : Char) : Char :=
  match c with
  | 'á' => 'a' | 'č' => 'c' | 'ď' => 'd' | 'é' => 'e' | 'ě' => 'e' | 'í' => 'i'
  | 'ň' => 'n' | 'ó' => 'o' | 'ř' => 'r' | 'š' => 's' | 'ť' => 't' | 'ú' => 'u'
  | 'ů' => 'u' | 'ý' => 'y' | 'ž' => 'z'
  | 'Á' => 'A' | 'Č' => 'C' | 'Ď' => 'D' | 'É' => 'E' | 'Ě' => 'E' | 'Í' => 'I'
  | 'Ň' => 'N' | 'Ó' => 'O' | 'Ř' => 'R' | 'Š' => 'S' | 'Ť' => 'T' | 'Ú' => 'U'
  | 'Ů' => 'U' | 'Ý' => 'Y' | 'Ž' => 'Z'
  | _ => c

/-- `normalize_text` (`src/signer.py` lines 141–156): Czech characters to
their ASCII equivalents. -/
def normalize_text (text : String) : String :=
  ⟨text.data.map normChar⟩

/-! The certificate / signer model (`src/signer.py` lines 28–105).

`pyhanko`'s `SimpleSigner.load_pkcs12_data` and the `asn1crypto` certificate
accessors are external libraries; they are modelled by plain data: a PKCS#12
archive carries its passphrase, a well-formedness flag, and the signing
identity it decodes to, and a certificate carries the already-extracted
attribute fields (`x.y.strftime(...)` date formatting is modelled by storing
the formatted strings). -/

/-- The attributes of the signing certificate that the program reads.
`Option` fields model dictionary keys that may be absent; date fields hold
the `DD.MM.YYYY HH:MM`-formatted strings. -/
structure Certificate where
  subject_common_name : Option String
  subject_organization_name : Option String
  subject_country_name : Option String
  issuer_common_name : Option String
  issuer_organization_name : Option String
  valid_from : Option String
  valid_to : Option String
  serial_number : Nat
  deriving DecidableEq, Repr

/-- `pyhanko`'s `SimpleSigner`: an opaque signing handle exposing its
certificate. -/
structure SimpleSigner where
  signing_cert : Certificate
  deriving DecidableEq, Repr

/-- A PKCS#12 archive: the passphrase that decrypts it, whether it is
well-formed, and the signing identity stored inside. -/
structure P12Archive where
  passphrase : String
  well_formed : Bool
  signer : SimpleSigner
  deriving DecidableEq, Repr

/-- The error taxonomy of the pipeline.  `validation` is the bare
`ValueError` raised at pipeline entry; `credential` is the `ValueError` of
`load_signer_from_p12`; `pageOutOfRange` is the `IndexError` raised by
`doc[page_num]` on a bad page index; `fieldCollision` is pyhanko's failure on
a duplicate field name; `signFailed` is the `ValueError("Failed to sign PDF:
...")` wrapper of `sign_pdf_multiple`'s `except` block. -/
inductive PdfError where
  | validation (msg : String)
  | credential (msg : String)
  | pageOutOfRange (page : Nat)
  | fieldCollision (name : String)
  | signFailed (inner : PdfError)
  deriving DecidableEq, Repr

/-- `load_signer_from_p12` (`src/signer.py` lines 28–41): decode the archive,
wrapping any failure (wrong passphrase or malformed archive) in a credential
error.  The underlying library message is elided. -/
def load_signer_from_p12 (p12 : P12Archive) (p12_password : String) :
    Except PdfError SimpleSigner :=
  if p12.well_formed ∧ p12_password = p12.passphrase then
    .ok p12.signer
  else
    .error (.credential "Failed to load P12 certificate")

/-- `get_signer_name_from_signer` (`src/signer.py` lines 44–54): the subject
common name, with the `"Unknown"` soft fallback. -/
def get_signer_name_from_signer (signer : SimpleSigner) : String :=
  (signer.signing_cert.subject_common_name).getD "Unknown"

/-- Uppercase hexadecimal rendering of a natural number, modelling Python's
`format(serial, 'X')`. -/
def natHexUpper (n : Nat) : String :=
  ⟨(Nat.toDigits 16 n).map pyUpper⟩

/-- The dictionary built by `get_certificate_info`
(`src/signer.py` lines 57–105). -/
structure CertInfo where
  subject_cn : String
  subject_org : String
  subject_country : String
  issuer_cn : String
  issuer_org : String
  valid_from : String
  valid_to : String
  serial_number : String
  deriving DecidableEq, Repr

/-- `get_certificate_info` (`src/signer.py` lines 57–105): extract display
fields with their soft defaults (`'Unknown'` for common names, `''`
elsewhere); the serial renders as uppercase hex, with `''` for a falsy
serial. -/
def get_certificate_info (signer : SimpleSigner) : CertInfo :=
  let cert := signer.signing_cert
  { subject_cn := cert.subject_common_name.getD "Unknown"
    subject_org := cert.subject_organization_name.getD ""
    subject_country := cert.subject_country_name.getD ""
    issuer_cn := cert.issuer_common_name.getD "Unknown"
    issuer_org := cert.issuer_organization_name.getD ""
    valid_from := cert.valid_from.getD ""
    valid_to := cert.valid_to.getD ""
    serial_number := if cert.serial_number ≠ 0 then natHexUpper cert.serial_number else "" }

/-! The document model. -/

/-- A drawing operation burned into a page: `page.draw_rect`,
`page.draw_line`, or `page.insert_text` (position, text, font size, font
name).  Colors and stroke widths are not modelled. -/
inductive DrawOp where
  | rect (x0 y0 x1 y1 : ℚ)
  | line (x0 y0 x1 y1 : ℚ)
  | text (x y : ℚ) (s : String) (fontsize : ℚ) (fontname : String)
  deriving DecidableEq, Repr

/-- One PDF page: its size in points and the drawing operations on it. -/
structure Page where
  width : ℚ
  height : ℚ
  ops : List DrawOp
  deriving DecidableEq, Repr

/-- A cryptographic signature field registered in the document. -/
structure SigField where
  name : String
  box : ℚ × ℚ × ℚ × ℚ
  page : Nat
  reason : String
  deriving DecidableEq, Repr

/-- A pipeline event recorded in the document history: protocol-page
creation, a visual-mark render (page, kind, x, y, width, height), a
cryptographic signing step (field name, page, box), or locking. -/
inductive Event where
  | protocolPage
  | render (page : Nat) (sigType : String) (x y w h : ℚ)
  | sign (fieldName : String) (page : Nat) (box : ℚ × ℚ × ℚ × ℚ)
  | lock
  deriving DecidableEq, Repr

/-- The PDF byte buffer at a point in the pipeline: pages, signature fields,
encryption flag, and the history of stages that produced it (incremental
updates append to the file, so the byte buffer genuinely carries its own
history). -/
structure Doc where
  pages : List Page
  sigFields : List SigField
  encrypted : Bool
  history : List Event
  deriving DecidableEq, Repr

/-! `render_signature_appearance` (`src/signer.py` lines 159–276). -/

/-- The coordinate conversion on `src/signer.py` line 197:
`rect_top = page_height - y - height`, from bottom-left-origin PDF
coordinates to top-left-origin PyMuPDF coordinates. -/
def rect_top_signer (page_height y height : ℚ) : ℚ :=
  page_height - y - height

/-- The drawing operations that `render_signature_appearance` burns into the
target page: the white background box, then either the centered initials
(initials kind) or the three text lines of a full signature.  The name line
uses the ornamental font only when the font resource loads
(`src/signer.py` lines 222–228); otherwise it falls back to `"helv"`. -/
def render_ops (page_height x y width height : ℚ) (signer_name : String)
    (signature_type : String) (fontLoads : Bool) (now : String) : List DrawOp :=
  let rect_top := rect_top_signer page_height y height
  let bg := DrawOp.rect x rect_top (x + width) (rect_top + height)
  if signature_type = "initials" then
    let initials := normalize_text (get_initials signer_name)
    [bg, DrawOp.text (x + width / 2) (rect_top + height / 2 + 6) initials 18 "helv"]
  else
    let name_font := if fontLoads then "dancing" else "helv"
    [bg,
     DrawOp.text (x + 5) (rect_top + 18) signer_name 14 name_font,
     DrawOp.text (x + 5) (rect_top + 32) now 8 "helv",
     DrawOp.text (x + 5) (rect_top + 44) "github.com/keboola/esignature" 6 "helv"]

/-- `render_signature_appearance` (`src/signer.py` lines 159–276): burn the
visual mark into the page at `page_num`.  `doc[page_num]` raises on an
out-of-range page; otherwise the page gains the rendered operations and the
buffer is fully re-serialized. -/
def render_signature_appearance (doc : Doc) (page_num : Nat) (x y width height : ℚ)
    (signer_name : String) (signature_type : String) (fontLoads : Bool)
    (now : String) : Except PdfError Doc :=
  match doc.pages[page_num]? with
  | none => .error (.pageOutOfRange page_num)
  | some page =>
    .ok { doc with
          pages := doc.pages.set page_num
            { page with
              ops := page.ops ++
                render_ops page.height x y width height signer_name signature_type fontLoads now }
          history := doc.history ++ [Event.render page_num signature_type x y width height] }

/-- pyhanko's `TextStampStyle` as configured by `create_minimal_stamp_style`
(`src/signer.py` lines 279–292). -/
structure TextStampStyle where
  stamp_text : String
  font_size : ℚ
  border_width : ℚ
  deriving DecidableEq, Repr

/-- `create_minimal_stamp_style` (`src/signer.py` lines 279–292): the
near-blank stamp used because the visual mark is rendered separately. -/
def create_minimal_stamp_style : TextStampStyle :=
  { stamp_text := " ", font_size := 1, border_width := 0 }

/-! `create_protocol_page` (`src/signer.py` lines 295–460). -/

/-- A signature placement request, the dictionaries of the `signatures`
argument of `sign_pdf_multiple` (`src/signer.py` lines 479–485): required
`page`, `x`, `y` keys and optional `type`, `width`, `height` keys. -/
structure SigRequest where
  page : Nat
  x : ℚ
  y : ℚ
  type : Option String
  width : Option ℚ
  height : Option ℚ
  deriving DecidableEq, Repr

/-- The Signature-kind placements: `s.get("type") != "initials"`
(`src/signer.py` line 401). -/
def full_sigs (signatures_info : List SigRequest) : List SigRequest :=
  signatures_info.filter fun s => s.type ≠ some "initials"

/-- The Initials-kind placements: `s.get("type") == "initials"`
(`src/signer.py` line 402). -/
def initials_sigs (signatures_info : List SigRequest) : List SigRequest :=
  signatures_info.filter fun s => s.type = some "initials"

/-- Comma-separated join, Python's `", ".join(...)`. -/
def joinComma : List String → String
  | [] => ""
  | [s] => s
  | s :: rest => s ++ ", " ++ joinComma rest

/-- The enumerated Signature-kind lines of the protocol page
(`src/signer.py` lines 404–408): 1-based sequence numbers and 1-based page
numbers. -/
def sig_list_lines (signatures_info : List SigRequest) : List String :=
  (full_sigs signatures_info).enum.map fun p =>
    toString (p.1 + 1) ++ ". Digital signature - page " ++ toString (p.2.page + 1)

/-- `sorted(set(s.get("page", 0) + 1 for s in initials_sigs))`
(`src/signer.py` line 411): the sorted, deduplicated, 1-based page numbers
bearing initials. -/
def initials_pages_sorted (signatures_info : List SigRequest) : List Nat :=
  List.insertionSort (· ≤ ·) ((initials_sigs signatures_info).map fun s => s.page + 1).dedup

/-- The consolidated initials line (`src/signer.py` lines 410–415), present
only when some initials placement exists. -/
def initials_line_opt (signatures_info : List SigRequest) : List String :=
  if initials_sigs signatures_info ≠ [] then
    ["Initials - pages: " ++ joinComma ((initials_pages_sorted signatures_info).map toString)]
  else []

/-- The static verification-method explanation block
(`src/signer.py` lines 428–437). -/
def verification_text : List String :=
  ["The digital signature can be verified in Adobe Acrobat Reader",
   "or any other PDF viewer that supports digital signatures.",
   "",
   "The signature contains:",
   "- Timestamp of signing moment",
   "- Signer identity from certificate",
   "- Cryptographic hash of the document",
   "- Certificate chain for verification"]

/-- Default `github_url` of `create_protocol_page`
(`src/signer.py` line 300), the value used by the pipeline. -/
def GITHUB_URL : String := "https://github.com/keboola/esignature"

/-- One `for line in lines: insert_text((x, y_pos), ...); y_pos += 14` loop
of `create_protocol_page`: the text operations starting at `y0`, stepping 14
points per line. -/
def textBlockOps (xpos fontsize : ℚ) (lines : List String) (y0 : ℚ) : List DrawOp :=
  lines.enum.map fun p => DrawOp.text xpos (y0 + 14 * (p.1 : ℚ)) p.2 fontsize "helv"

/-- The `y_pos` value after such a loop. -/
def textBlockEnd (lines : List String) (y0 : ℚ) : ℚ :=
  y0 + 14 * lines.length

/-- The certificate block of the protocol page
(`src/signer.py` lines 367–383); the organization lines appear only when the
corresponding field is a nonempty string. -/
def cert_lines (cert_info : CertInfo) : List String :=
  ["Owner: " ++ normalize_text cert_info.subject_cn]
  ++ (if cert_info.subject_org ≠ "" then
        ["Organization: " ++ normalize_text cert_info.subject_org] else [])
  ++ ["Issuer: " ++ normalize_text cert_info.issuer_cn]
  ++ (if cert_info.issuer_org ≠ "" then
        ["Issuer Org: " ++ normalize_text cert_info.issuer_org] else [])
  ++ ["Valid from: " ++ cert_info.valid_from,
      "Valid until: " ++ cert_info.valid_to,
      "Serial number: " ++ cert_info.serial_number]

/-- The two document-information lines (`src/signer.py` lines 344–350).
`original_page_count = len(doc) - 1` is computed after the new page was
appended, so it equals the page count of the input document. -/
def doc_info_lines (original_page_count : Nat) (now : String) : List String :=
  ["Number of pages: " ++ toString original_page_count,
   "Signing date: " ++ now]

/-- The new A4 protocol page (`src/signer.py` lines 305–453): title, rule,
document information, certificate block, applied-signatures list,
verification block, footer rule and footer line, with the `y_pos` bookkeeping
of the source (start 50; +40 title; rule; +25; headers +18; body lines +14
each; +15 after the information blocks; +20 before the verification header).
`signer_name` is normalized on line 320 of the source but the result is never
used. -/
def protocol_page_content (doc : Doc) (signatures_info : List SigRequest)
    (signer_name : String) (cert_info : CertInfo) (now : String) : Page :=
  let margin : ℚ := 50
  let dinfo := doc_info_lines doc.pages.length now
  let clines := cert_lines cert_info
  let slines := sig_list_lines signatures_info
  let ilines := initials_line_opt signatures_info
  let y1 := textBlockEnd dinfo 133
  let y2 := textBlockEnd clines (y1 + 15 + 18)
  let y3 := textBlockEnd slines (y2 + 15 + 18)
  let y4 := textBlockEnd ilines y3
  { width := 595, height := 842,
    ops :=
      [DrawOp.text margin 50 "Digital Signature Protocol" 18 "helv",
       DrawOp.line margin 90 (595 - margin) 90,
       DrawOp.text margin 115 "Document Information:" 12 "helv"]
      ++ textBlockOps (margin + 10) 10 dinfo 133
      ++ [DrawOp.text margin (y1 + 15) "Certificate Used:" 12 "helv"]
      ++ textBlockOps (margin + 10) 10 clines (y1 + 15 + 18)
      ++ [DrawOp.text margin (y2 + 15) "Applied Signatures:" 12 "helv"]
      ++ textBlockOps (margin + 10) 10 slines (y2 + 15 + 18)
      ++ textBlockOps (margin + 10) 10 ilines y3
      ++ [DrawOp.text margin (y4 + 20) "Signature Verification:" 12 "helv"]
      ++ textBlockOps (margin + 10) 10 verification_text (y4 + 20 + 18)
      ++ [DrawOp.line margin (792 - 50) (595 - margin) (792 - 50),
          DrawOp.text margin (792 - 35)
            ("Created by Keboola eSignature | " ++ GITHUB_URL) 8 "helv"] }

/-- `create_protocol_page` (`src/signer.py` lines 295–460): append the
protocol page at the end of the document (`doc.new_page` appends) and
re-serialize. -/
def create_protocol_page (doc : Doc) (signatures_info : List SigRequest)
    (signer_name : String) (cert_info : CertInfo) (now : String) : Doc :=
  { doc with
    pages := doc.pages ++
      [protocol_page_content doc signatures_info signer_name cert_info now]
    history := doc.history ++ [Event.protocolPage] }

/-! The cryptographic signing step and the pipeline
(`src/signer.py` lines 463–606). -/

/-- One pyhanko signing pass (`src/signer.py` lines 542–573): register a new
signature field with the given name and box on the target page and append an
incremental signature.  pyhanko fails on an out-of-range page or when the
field name collides with an existing field; otherwise the new field is
appended and the prior bytes (here: pages, fields, history) are preserved. -/
def sign_with_field (doc : Doc) (field_name : String) (box : ℚ × ℚ × ℚ × ℚ)
    (page : Nat) (reason : String) : Except PdfError Doc :=
  if page < doc.pages.length then
    if doc.sigFields.any (fun f => f.name = field_name) then
      .error (.fieldCollision field_name)
    else
      .ok { doc with
            sigFields := doc.sigFields ++
              [{ name := field_name, box := box, page := page, reason := reason }]
            history := doc.history ++ [Event.sign field_name page box] }
  else
    .error (.pageOutOfRange page)

/-- `lock_pdf_for_editing` (`src/signer.py` lines 585–606): re-encrypt with a
random discarded owner password, empty user password and a
print/copy/accessibility permission mask.  The random password and the
permission bits are not observable in the model beyond the encryption
flag. -/
def lock_pdf_for_editing (doc : Doc) : Doc :=
  { doc with encrypted := true, history := doc.history ++ [Event.lock] }

/-- Width resolved for one placement (`src/signer.py` lines 522–528):
kind-specific default unless the request supplies an override. -/
def resolved_width (sig : SigRequest) : ℚ :=
  if sig.type.getD "full" = "initials" then sig.width.getD INITIALS_WIDTH
  else sig.width.getD SIGNATURE_WIDTH

/-- Height resolved for one placement (`src/signer.py` lines 522–528). -/
def resolved_height (sig : SigRequest) : ℚ :=
  if sig.type.getD "full" = "initials" then sig.height.getD INITIALS_HEIGHT
  else sig.height.getD SIGNATURE_HEIGHT

/-- The per-placement loop of `sign_pdf_multiple`
(`src/signer.py` lines 516–573), over the `enumerate(signatures)` pairs: for
each placement, render the visual appearance into the current buffer, then
apply the cryptographic signature with field name `Signature_{i+1}` at the
same box, the signed output becoming the next iteration's input.  An
exception from either step aborts the loop. -/
def signLoop (signer_name reason now : String) (fontLoads : Bool) :
    List (Nat × SigRequest) → Doc → Except PdfError Doc
  | [], current => .ok current
  | (i, sig) :: rest, current =>
    match render_signature_appearance current sig.page sig.x sig.y
        (resolved_width sig) (resolved_height sig) signer_name
        (sig.type.getD "full") fontLoads now with
    | .error e => .error e
    | .ok rendered =>
      match sign_with_field rendered ("Signature_" ++ toString (i + 1))
          (sig.x, sig.y, sig.x + resolved_width sig, sig.y + resolved_height sig)
          sig.page reason with
      | .error e => .error e
      | .ok signed => signLoop signer_name reason now fontLoads rest signed

/-- `sign_pdf_multiple` (`src/signer.py` lines 463–582): the pipeline
orchestrator.  An empty placement list raises at entry, outside the
`try` block; inside it, the signer is loaded, the protocol page is optionally
appended, the placements are processed in order, the result is optionally
locked, and any exception is re-raised wrapped as a signing failure. -/
def sign_pdf_multiple (pdf : Doc) (p12 : P12Archive) (p12_password : String)
    (signatures : List SigRequest) (lock_after_signing : Bool)
    (add_protocol_page : Bool) (reason : String) (now : String)
    (fontLoads : Bool) : Except PdfError Doc :=
  if signatures = [] then
    .error (.validation "At least one signature position is required")
  else
    match load_signer_from_p12 p12 p12_password with
    | .error e => .error (.signFailed e)
    | .ok signer =>
      match signLoop (get_signer_name_from_signer signer) reason now fontLoads
          signatures.enum
          (if add_protocol_page then
            create_protocol_page pdf signatures (get_signer_name_from_signer signer)
              (get_certificate_info signer) now
          else pdf) with
      | .error e => .error (.signFailed e)
      | .ok signed =>
        .ok (if lock_after_signing then lock_pdf_for_editing signed else signed)

/-- `sign_pdf` (`src/signer.py` lines 610–636): the legacy single-signature
entry point, delegating to `sign_pdf_multiple` with a one-element placement
list of kind `"full"`; `custom_text` is accepted and ignored, and
`lock_after_signing` / `add_protocol_page` keep their `False` defaults. -/
def sign_pdf (pdf : Doc) (p12 : P12Archive) (p12_password : String)
    (page_number : Nat) (x y : ℚ) (width height : ℚ) (reason : String)
    (custom_text : Option String) (now : String) (fontLoads : Bool) :
    Except PdfError Doc :=
  sign_pdf_multiple pdf p12 p12_password
    [{ page := page_number, x := x, y := y, type := some "full",
       width := some width, height := some height }]
    false false reason now fontLoads

/-! The preview renderer's coordinate conversion, `src/app.py` lines 73–127. -/

/-- Python `int(...)` on a rational: truncation toward zero. -/
def pyInt (q : ℚ) : ℤ :=
  if q < 0 then -((-q).floor) else q.floor

/-- The bottom-left-to-top-left conversion inside `draw_signature_boxes`
(`src/app.py` line 107): `page_height_pts - y_pts - sig_height`. -/
def to_top_app (page_height_pts y_pts sig_height : ℚ) : ℚ :=
  page_height_pts - y_pts - sig_height

/-- `pixel_y` of `draw_signature_boxes` (`src/app.py` line 107): the
converted top coordinate scaled to preview pixels and truncated. -/
def draw_box_pixel_y (img_height page_height_pts y_pts sig_height : ℚ) : ℤ :=
  pyInt ((page_height_pts - y_pts - sig_height) * (img_height / page_height_pts))

/-! Observers and expected shapes used in the claim statements. -/

/-- The text payload of a drawing operation, if it is a text insertion. -/
def DrawOp.textString : DrawOp → Option String
  | .text _ _ s _ _ => some s
  | _ => none

/-- The text lines inserted on a page, in insertion order. -/
def pageTexts (p : Page) : List String :=
  p.ops.filterMap DrawOp.textString

/-- The signature-field records that the per-placement loop is expected to
register, starting at `enumerate` index `k`: field `Signature_{k+1}` with the
placement's box at its resolved size, in placement order. -/
def expectedFields (reason : String) : Nat → List SigRequest → List SigField
  | _, [] => []
  | k, s :: rest =>
    { name := "Signature_" ++ toString (k + 1),
      box := (s.x, s.y, s.x + resolved_width s, s.y + resolved_height s),
      page := s.page, reason := reason } :: expectedFields reason (k + 1) rest

/-- The event trace the per-placement loop is expected to append, starting at
`enumerate` index `k`: for each placement, a render event immediately
followed by the signing event for field `Signature_{k+1}`. -/
def loopEvents : Nat → List SigRequest → List Event
  | _, [] => []
  | k, s :: rest =>
    Event.render s.page (s.type.getD "full") s.x s.y
        (resolved_width s) (resolved_height s) ::
    Event.sign ("Signature_" ++ toString (k + 1)) s.page
        (s.x, s.y, s.x + resolved_width s, s.y + resolved_height s) ::
    loopEvents (k + 1) rest

/-! Concrete inputs used by the witness theorems. -/

/-- A concrete test certificate. -/
def cert1 : Certificate :=
  { subject_common_name := some "Jan Novak"
    subject_organization_name := some "ACME"
    subject_country_name := none
    issuer_common_name := some "Test CA"
    issuer_organization_name := none
    valid_from := some "01.01.2020 00:00"
    valid_to := some "01.01.2030 00:00"
    serial_number := 255 }

/-- A concrete well-formed PKCS#12 archive with passphrase `"pw"`. -/
def p12c : P12Archive :=
  { passphrase := "pw", well_formed := true, signer := ⟨cert1⟩ }

/-- A blank A4 page. -/
def basePage : Page := { width := 595, height := 842, ops := [] }

/-- A one-page base document. -/
def doc1 : Doc :=
  { pages := [basePage], sigFields := [], encrypted := false, history := [] }

/-- A two-page base document. -/
def doc2 : Doc :=
  { pages := [basePage, basePage], sigFields := [], encrypted := false, history := [] }

/-- A concrete full-signature placement on page 0 at (400, 50). -/
def sigA : SigRequest :=
  { page := 0, x := 400, y := 50, type := some "full", width := none, height := none }

/-- A concrete initials placement on page 1 at (20, 20). -/
def sigB : SigRequest :=
  { page := 1, x := 20, y := 20, type := some "initials", width := none, height := none }

/-- The concrete two-placement list of the end-to-end scenario. -/
def sigs2 : List SigRequest := [sigA, sigB]

/-- The default signing reason. -/
def reason1 : String := "Electronically signed"

/-- A concrete timestamp string, standing in for `datetime.now()`. -/
def now1 : String := "2024-01-01 12:00:00"

/-- The concrete end-to-end pipeline run: two placements on a two-page
document with a protocol page and no locking. -/
def run2 : Except PdfError Doc :=
  sign_pdf_multiple doc2 p12c "pw" sigs2 false true reason1 now1 true

/-- The output document of the concrete end-to-end run. -/
def out2 : Doc :=
  run2.toOption.getD { pages := [], sigFields := [], encrypted := false, history := [] }

/-! Characterization lemmas for the pipeline stages. -/

theorem render_ok_parts {doc : Doc} {page_num : Nat} {x y width height : ℚ}
    {signer_name signature_type : String} {fontLoads : Bool} {now : String} {d' : Doc}
    (hr : render_signature_appearance doc page_num x y width height signer_name
        signature_type fontLoads now = .ok d') :
    d'.sigFields = doc.sigFields ∧ d'.encrypted = doc.encrypted ∧
    d'.pages.length = doc.pages.length ∧
    d'.history = doc.history ++ [Event.render page_num signature_type x y width height] ∧
    page_num < doc.pages.length := by
  unfold render_signature_appearance at hr
  split at hr
  · exact absurd hr (by simp)
  · rename_i page hp
    injection hr with hd'
    subst hd'
    refine ⟨rfl, rfl, by simp, rfl, ?_⟩
    exact (List.getElem?_eq_some.mp hp).1

theorem render_err_of_out_of_range {doc : Doc} {page_num : Nat} {x y width height : ℚ}
    {signer_name signature_type : String} {fontLoads : Bool} {now : String}
    (h : doc.pages.length ≤ page_num) :
    render_signature_appearance doc page_num x y width height signer_name
        signature_type fontLoads now = .error (.pageOutOfRange page_num) := by
  unfold render_signature_appearance
  rw [List.getElem?_eq_none h]

theorem sign_with_field_ok_parts {doc : Doc} {field_name : String}
    {box : ℚ × ℚ × ℚ × ℚ} {page : Nat} {reason : String} {d' : Doc}
    (hs : sign_with_field doc field_name box page reason = .ok d') :
    d'.sigFields = doc.sigFields ++
      [{ name := field_name, box := box, page := page, reason := reason }] ∧
    d'.pages = doc.pages ∧ d'.encrypted = doc.encrypted ∧
    d'.history = doc.history ++ [Event.sign field_name page box] ∧
    (∀ f ∈ doc.sigFields, f.name ≠ field_name) := by
  unfold sign_with_field at hs
  split at hs
  · split at hs
    · exact absurd hs (by simp)
    · injection hs with hd'
      subst hd'
      rename_i hany
      refine ⟨rfl, rfl, rfl, rfl, ?_⟩
      intro f hf
      simp only [List.any_eq_true, decide_eq_true_eq, not_exists, not_and] at hany
      exact hany f hf
  · exact absurd hs (by simp)

theorem signLoop_ok_parts {signer_name reason now : String} {fontLoads : Bool} :
    ∀ (sigs : List SigRequest) (k : Nat) (d d' : Doc),
      signLoop signer_name reason now fontLoads (List.enumFrom k sigs) d = .ok d' →
      d'.sigFields = d.sigFields ++ expectedFields reason k sigs ∧
      d'.history = d.history ++ loopEvents k sigs ∧
      d'.pages.length = d.pages.length ∧
      d'.encrypted = d.encrypted := by
  intro sigs
  induction sigs with
  | nil =>
    intro k d d' h
    simp only [List.enumFrom, signLoop] at h
    injection h with h
    subst h
    simp [expectedFields, loopEvents]
  | cons s rest ih =>
    intro k d d' h
    simp only [List.enumFrom, signLoop] at h
    split at h
    · exact absurd h (by simp)
    · rename_i rendered hr
      split at h
      · exact absurd h (by simp)
      · rename_i signed hs
        obtain ⟨hrf, hre, hrl, hrh, -⟩ := render_ok_parts hr
        obtain ⟨hsf, hsp, hse, hsh, -⟩ := sign_with_field_ok_parts hs
        obtain ⟨if1, if2, if3, if4⟩ := ih (k + 1) signed d' h
        refine ⟨?_, ?_, ?_, ?_⟩
        · rw [if1, hsf, hrf]
          simp [expectedFields]
        · rw [if2, hsh, hrh]
          simp [loopEvents]
        · rw [if3, hsp, hrl]
        · rw [if4, hse, hre]

theorem signLoop_nodup {signer_name reason now : String} {fontLoads : Bool} :
    ∀ (sigs : List SigRequest) (k : Nat) (d d' : Doc),
      signLoop signer_name reason now fontLoads (List.enumFrom k sigs) d = .ok d' →
      (d.sigFields.map SigField.name).Nodup →
      (d'.sigFields.map SigField.name).Nodup := by
  intro sigs
  induction sigs with
  | nil =>
    intro k d d' h hd
    simp only [List.enumFrom, signLoop] at h
    injection h with h
    subst h
    exact hd
  | cons s rest ih =>
    intro k d d' h hd
    simp only [List.enumFrom, signLoop] at h
    split at h
    · exact absurd h (by simp)
    · rename_i rendered hr
      split at h
      · exact absurd h (by simp)
      · rename_i signed hs
        obtain ⟨hrf, -, -, -, -⟩ := render_ok_parts hr
        obtain ⟨hsf, -, -, -, hfresh⟩ := sign_with_field_ok_parts hs
        refine ih (k + 1) signed d' h ?_
        rw [hsf, hrf]
        rw [List.map_append, List.nodup_append]
        refine ⟨hd, by simp, ?_⟩
        intro a ha
        simp only [List.map_cons, List.map_nil, List.mem_singleton]
        intro hb
        subst hb
        obtain ⟨f, hf, hfa⟩ := List.mem_map.mp ha
        exact hfresh f (by rw [hrf]; exact hf) hfa

theorem signLoop_err {signer_name reason now : String} {fontLoads : Bool} :
    ∀ (sigs : List SigRequest) (k : Nat) (d : Doc),
      (∃ s ∈ sigs, d.pages.length ≤ s.page) →
      ∃ e, signLoop signer_name reason now fontLoads (List.enumFrom k sigs) d = .error e := by
  intro sigs
  induction sigs with
  | nil =>
    intro k d h
    simp at h
  | cons s rest ih =>
    intro k d hex
    cases hr : render_signature_appearance d s.page s.x s.y
        (resolved_width s) (resolved_height s) signer_name
        (s.type.getD "full") fontLoads now with
    | error e =>
      exact ⟨e, by simp only [List.enumFrom, signLoop]; rw [hr]⟩
    | ok rendered =>
      cases hs : sign_with_field rendered ("Signature_" ++ toString (k + 1))
          (s.x, s.y, s.x + resolved_width s, s.y + resolved_height s)
          s.page reason with
      | error e =>
        exact ⟨e, by simp only [List.enumFrom, signLoop, hr, hs]⟩
      | ok signed =>
        obtain ⟨-, -, hrl, -, hin⟩ := render_ok_parts hr
        obtain ⟨-, hsp, -, -, -⟩ := sign_with_field_ok_parts hs
        obtain ⟨s', hs', hbad⟩ := hex
        rcases List.mem_cons.mp hs' with h1 | h1
        · subst h1; omega
        · obtain ⟨e, he⟩ := ih (k + 1) signed (⟨s', h1, by rw [hsp, hrl]; exact hbad⟩)
          exact ⟨e, by simp only [List.enumFrom, signLoop, hr, hs]; exact he⟩

theorem sign_pdf_multiple_ok_elim {pdf : Doc} {p12 : P12Archive} {p12_password : String}
    {signatures : List SigRequest} {lock_after_signing add_protocol_page : Bool}
    {reason now : String} {fontLoads : Bool} {out : Doc}
    (h : sign_pdf_multiple pdf p12 p12_password signatures lock_after_signing
        add_protocol_page reason now fontLoads = .ok out) :
    ∃ signed,
      signLoop (get_signer_name_from_signer p12.signer) reason now fontLoads
          signatures.enum
          (if add_protocol_page then
            create_protocol_page pdf signatures
              (get_signer_name_from_signer p12.signer)
              (get_certificate_info p12.signer) now
          else pdf) = .ok signed ∧
      out = (if lock_after_signing then lock_pdf_for_editing signed else signed) := by
  unfold sign_pdf_multiple at h
  split at h
  · exact absurd h (by simp)
  · split at h
    · exact absurd h (by simp)
    · rename_i signer hload
      have hsig : signer = p12.signer := by
        unfold load_signer_from_p12 at hload
        split at hload
        · injection hload with h'
          exact h'.symm
        · exact absurd hload (by simp)
      subst hsig
      split at h
      · exact absurd h (by simp)
      · rename_i signed hloop
        injection h with hout
        exact ⟨signed, hloop, hout.symm⟩

theorem create_protocol_page_parts (doc : Doc) (signatures_info : List SigRequest)
    (signer_name : String) (cert_info : CertInfo) (now : String) :
    (create_protocol_page doc signatures_info signer_name cert_info now).pages =
      doc.pages ++ [protocol_page_content doc signatures_info signer_name cert_info now] ∧
    (create_protocol_page doc signatures_info signer_name cert_info now).sigFields =
      doc.sigFields ∧
    (create_protocol_page doc signatures_info signer_name cert_info now).encrypted =
      doc.encrypted ∧
    (create_protocol_page doc signatures_info signer_name cert_info now).history =
      doc.history ++ [Event.protocolPage] :=
  ⟨rfl, rfl, rfl, rfl⟩

theorem lock_pdf_parts (doc : Doc) :
    (lock_pdf_for_editing doc).pages = doc.pages ∧
    (lock_pdf_for_editing doc).sigFields = doc.sigFields ∧
    (lock_pdf_for_editing doc).encrypted = true ∧
    (lock_pdf_for_editing doc).history = doc.history ++ [Event.lock] :=
  ⟨rfl, rfl, rfl, rfl⟩

theorem expectedFields_map_name (reason : String) :
    ∀ (sigs : List SigRequest) (k : Nat),
      (expectedFields reason k sigs).map SigField.name =
        (List.range sigs.length).map (fun j => "Signature_" ++ toString (k + j + 1)) := by
  intro sigs
  induction sigs with
  | nil => intro k; simp [expectedFields]
  | cons s rest ih =>
    intro k
    rw [expectedFields]
    rw [List.map_cons, List.length_cons, List.range_succ_eq_map, List.map_cons,
      List.map_map, ih (k + 1)]
    have harith : ∀ j : Nat, (k + 1) + j + 1 = k + (j + 1) + 1 := by omega
    simp [Function.comp, harith]

theorem expectedFields_length (reason : String) :
    ∀ (sigs : List SigRequest) (k : Nat),
      (expectedFields reason k sigs).length = sigs.length := by
  intro sigs
  induction sigs with
  | nil => intro k; rfl
  | cons s rest ih => intro k; simp [expectedFields, ih (k + 1)]

theorem expectedFields_getElem? (reason : String) :
    ∀ (sigs : List SigRequest) (k i : Nat) (s : SigRequest), sigs[i]? = some s →
      (expectedFields reason k sigs)[i]? = some
        { name := "Signature_" ++ toString (k + i + 1),
          box := (s.x, s.y, s.x + resolved_width s, s.y + resolved_height s),
          page := s.page, reason := reason } := by
  intro sigs
  induction sigs with
  | nil => intro k i s h; simp at h
  | cons s0 rest ih =>
    intro k i s h
    cases i with
    | zero =>
      simp at h
      subst h
      simp [expectedFields]
    | succ i =>
      simp only [List.getElem?_cons_succ] at h
      rw [expectedFields]
      simp only [List.getElem?_cons_succ]
      rw [ih (k + 1) i s h]
      have : (k + 1) + i + 1 = k + (i + 1) + 1 := by omega
      rw [this]

theorem loopEvents_render_mem :
    ∀ (sigs : List SigRequest) (k i : Nat) (s : SigRequest), sigs[i]? = some s →
      Event.render s.page (s.type.getD "full") s.x s.y
          (resolved_width s) (resolved_height s) ∈ loopEvents k sigs := by
  intro sigs
  induction sigs with
  | nil => intro k i s h; simp at h
  | cons s0 rest ih =>
    intro k i s h
    cases i with
    | zero =>
      simp at h
      subst h
      rw [loopEvents]
      exact List.mem_cons_self _ _
    | succ i =>
      simp only [List.getElem?_cons_succ] at h
      rw [loopEvents]
      exact List.mem_cons_of_mem _ (List.mem_cons_of_mem _ (ih (k + 1) i s h))

theorem mem_enumFrom_of_getElem? {α : Type} :
    ∀ (l : List α) (n i : Nat) (a : α), l[i]? = some a → (n + i, a) ∈ l.enumFrom n := by
  intro l
  induction l with
  | nil => intro n i a h; simp at h
  | cons x xs ih =>
    intro n i a h
    cases i with
    | zero =>
      simp at h
      subst h
      simp [List.enumFrom]
    | succ i =>
      simp only [List.getElem?_cons_succ] at h
      have := ih (n + 1) i a h
      have harith : n + (i + 1) = (n + 1) + i := by omega
      rw [List.enumFrom, List.mem_cons, harith]
      exact Or.inr this

theorem mem_enum_of_getElem? {α : Type} (l : List α) (i : Nat) (a : α)
    (h : l[i]? = some a) : (i, a) ∈ l.enum := by
  have := mem_enumFrom_of_getElem? l 0 i a h
  rw [Nat.zero_add] at this
  exact this

theorem textBlockOps_texts (xpos fontsize : ℚ) (lines : List String) (y0 : ℚ) :
    (textBlockOps xpos fontsize lines y0).filterMap DrawOp.textString = lines := by
  unfold textBlockOps
  rw [List.filterMap_map]
  have h1 : (DrawOp.textString ∘ fun p : Nat × String =>
      DrawOp.text xpos (y0 + 14 * (p.1 : ℚ)) p.2 fontsize "helv") = some ∘ Prod.snd := rfl
  rw [h1, congrFun (List.filterMap_eq_map Prod.snd) (lines.enum), List.enum_map_snd]

theorem pageTexts_protocol (doc : Doc) (signatures_info : List SigRequest)
    (signer_name : String) (cert_info : CertInfo) (now : String) :
    pageTexts (protocol_page_content doc signatures_info signer_name cert_info now) =
      ["Digital Signature Protocol", "Document Information:"]
      ++ doc_info_lines doc.pages.length now
      ++ ["Certificate Used:"] ++ cert_lines cert_info
      ++ ["Applied Signatures:"] ++ sig_list_lines signatures_info
      ++ initials_line_opt signatures_info
      ++ ["Signature Verification:"] ++ verification_text
      ++ ["Created by Keboola eSignature | " ++ GITHUB_URL] := by
  unfold pageTexts protocol_page_content
  simp only [List.filterMap_append, textBlockOps_texts]
  rfl

/-! The claim theorems. -/

/-- C4: loading a PKCS#12 archive with a wrong passphrase, or a malformed
archive, makes the pipeline fail with a credential error wrapped in the
pipeline's signing-failure error, and the call yields only this typed
failure — no output document is produced. -/
theorem C4_credential_failure :
    ∀ (pdf : Doc) (p12 : P12Archive) (p12_password : String)
      (signatures : List SigRequest) (lock_after_signing add_protocol_page : Bool)
      (reason now : String) (fontLoads : Bool),
      signatures ≠ [] →
      (p12.well_formed = false ∨ p12_password ≠ p12.passphrase) →
      sign_pdf_multiple pdf p12 p12_password signatures lock_after_signing
          add_protocol_page reason now fontLoads =
        .error (.signFailed (.credential "Failed to load P12 certificate")) := by
  intro pdf p12 pw sigs lock proto reason now fl hne hbad
  have hload : load_signer_from_p12 p12 pw =
      .error (.credential "Failed to load P12 certificate") := by
    unfold load_signer_from_p12
    rw [if_neg]
    rintro ⟨hw, hp⟩
    rcases hbad with hb | hb
    · rw [hb] at hw; exact absurd hw (by simp)
    · exact hb hp
  unfold sign_pdf_multiple
  rw [if_neg hne, hload]

/-- C4 witness: the concrete two-placement run with the wrong passphrase
fails with the wrapped credential error. -/
theorem C4_credential_failure_witness :
    sigs2 ≠ [] ∧ (p12c.well_formed = false ∨ "wrong" ≠ p12c.passphrase) ∧
    sign_pdf_multiple doc2 p12c "wrong" sigs2 false false reason1 now1 true =
      .error (.signFailed (.credential "Failed to load P12 certificate")) :=
  ⟨by decide, Or.inr (by decide),
    C4_credential_failure doc2 p12c "wrong" sigs2 false false reason1 now1 true
      (by decide) (Or.inr (by decide))⟩

/-- C6: both visual consumers convert bottom-left-origin PDF coordinates to
top-left-origin drawing coordinates with `top = page_height - y - height`
(the renderer's `rect_top` and the preview's `pixel_y` conversion agree), and
the conversion is an involution: converting a bottom-left-origin point to
top-left origin and back yields the original point, for all page
heights > 0. -/
theorem C6_coordinate_conversion :
    (∀ page_height y height : ℚ,
        rect_top_signer page_height y height = page_height - y - height) ∧
    (∀ page_height y height : ℚ,
        to_top_app page_height y height = rect_top_signer page_height y height) ∧
    (∀ img_height page_height y height : ℚ,
        draw_box_pixel_y img_height page_height y height =
          pyInt (rect_top_signer page_height y height * (img_height / page_height))) ∧
    (∀ page_height y height : ℚ, 0 < page_height →
        rect_top_signer page_height (rect_top_signer page_height y height) height = y) := by
  refine ⟨fun _ _ _ => rfl, fun _ _ _ => rfl, fun _ _ _ _ => rfl, ?_⟩
  intro ph y h _
  unfold rect_top_signer
  ring

/-- C6 witness: the involution at page height 842, y 50, height 35. -/
theorem C6_coordinate_conversion_witness :
    (0 : ℚ) < 842 ∧
    rect_top_signer 842 (rect_top_signer 842 50 35) 35 = 50 :=
  ⟨by norm_num, C6_coordinate_conversion.2.2.2 842 50 35 (by norm_num)⟩

/-- C7: the initials derivation lowercases the name, strips the listed
academic-title tokens by case-insensitive substring match, splits on
whitespace, concatenates the uppercased first alphabetic character of each
remaining token, and returns `"?"` when no alphabetic initial can be
derived; in particular on the three example inputs. -/
theorem C7_initials :
    get_initials "Ing. Jan Novák Ph.D." = "JN" ∧
    get_initials "Marie Anna Kovářová" = "MAK" ∧
    get_initials "" = "?" ∧
    (∀ name : String, initials_letters name = [] → get_initials name = "?") := by
  refine ⟨by decide, by decide, by decide, ?_⟩
  intro name h
  unfold get_initials
  rw [h]
  rfl

/-- C7 witness: a name with no alphabetic initial falls back to `"?"`. -/
theorem C7_initials_witness :
    initials_letters "123 456" = [] ∧ get_initials "123 456" = "?" :=
  ⟨by decide, C7_initials.2.2.2 "123 456" (by decide)⟩

/-- C9: a font-load failure never makes the rendering of a full signature
mark fail — the renderer returns a result exactly when it does with the font
available — and the fallback burns the same operations with the plain
`"helv"` typeface on the name line. -/
theorem C9_font_fallback :
    (∀ (doc : Doc) (page_num : Nat) (x y width height : ℚ) (signer_name now : String),
        (render_signature_appearance doc page_num x y width height signer_name
            "full" false now).isOk =
        (render_signature_appearance doc page_num x y width height signer_name
            "full" true now).isOk) ∧
    (∀ (page_height x y width height : ℚ) (signer_name now : String),
        render_ops page_height x y width height signer_name "full" false now =
          [DrawOp.rect x (rect_top_signer page_height y height) (x + width)
              (rect_top_signer page_height y height + height),
           DrawOp.text (x + 5) (rect_top_signer page_height y height + 18)
              signer_name 14 "helv",
           DrawOp.text (x + 5) (rect_top_signer page_height y height + 32)
              now 8 "helv",
           DrawOp.text (x + 5) (rect_top_signer page_height y height + 44)
              "github.com/keboola/esignature" 6 "helv"]) := by
  constructor
  · intro doc pn x y w h sn now
    unfold render_signature_appearance
    cases hp : doc.pages[pn]? <;> simp [Except.isOk, Except.toBool]
  · intro ph x y w h sn now
    rfl

/-- C10: the legacy single-signature entry point returns exactly what
`sign_pdf_multiple` returns on the corresponding one-element `"full"`
placement list with locking and protocol page disabled, and its
`custom_text` parameter has no effect on the output. -/
theorem C10_sign_pdf_refinement :
    (∀ (pdf : Doc) (p12 : P12Archive) (p12_password : String) (page_number : Nat)
        (x y width height : ℚ) (reason : String) (custom_text : Option String)
        (now : String) (fontLoads : Bool),
        sign_pdf pdf p12 p12_password page_number x y width height reason
            custom_text now fontLoads =
          sign_pdf_multiple pdf p12 p12_password
            [{ page := page_number, x := x, y := y, type := some "full",
               width := some width, height := some height }]
            false false reason now fontLoads) ∧
    (∀ (pdf : Doc) (p12 : P12Archive) (p12_password : String) (page_number : Nat)
        (x y width height : ℚ) (reason : String) (ct ct' : Option String)
        (now : String) (fontLoads : Bool),
        sign_pdf pdf p12 p12_password page_number x y width height reason
            ct now fontLoads =
          sign_pdf pdf p12 p12_password page_number x y width height reason
            ct' now fontLoads) :=
  ⟨fun _ _ _ _ _ _ _ _ _ _ _ _ => rfl,
   fun _ _ _ _ _ _ _ _ _ _ _ _ _ => rfl⟩

/-- C3 counterexample: an out-of-range placement is not rejected at pipeline
entry.  On a one-page base document, a placement with page index 1 (equal to
the page count, hence out of range for the supplied document) is accepted
when the protocol page is requested: the pipeline succeeds and signs the
appended protocol page instead of raising a validation error. -/
theorem C3_counterexample :
    doc1.pages.length = 1 ∧
    (sign_pdf_multiple doc1 p12c "pw"
        [{ page := 1, x := 10, y := 20, type := some "full",
           width := none, height := none }]
        false true reason1 now1 true).isOk = true := by
  constructor
  · rfl
  · decide

/-- C3 (amended): the empty placement list is rejected at pipeline entry —
before credential loading and before any document mutation — with the bare
validation error; a placement whose page index is out of range for the
document as it stands when the loop runs (after the optional protocol-page
append) also makes the pipeline fail, but with an error wrapped like any
other processing failure, not with an entry-time validation error. -/
theorem C3_entry_validation :
    (∀ (pdf : Doc) (p12 : P12Archive) (p12_password : String)
        (lock_after_signing add_protocol_page : Bool) (reason now : String)
        (fontLoads : Bool),
        sign_pdf_multiple pdf p12 p12_password [] lock_after_signing
            add_protocol_page reason now fontLoads =
          .error (.validation "At least one signature position is required")) ∧
    (∀ (pdf : Doc) (p12 : P12Archive) (p12_password : String)
        (signatures : List SigRequest) (lock_after_signing add_protocol_page : Bool)
        (reason now : String) (fontLoads : Bool),
        p12.well_formed = true → p12_password = p12.passphrase →
        (∃ s ∈ signatures,
          pdf.pages.length + (if add_protocol_page then 1 else 0) ≤ s.page) →
        ∃ e, sign_pdf_multiple pdf p12 p12_password signatures lock_after_signing
            add_protocol_page reason now fontLoads = .error (.signFailed e)) := by
  constructor
  · intro pdf p12 pw lock proto reason now fl
    rfl
  · intro pdf p12 pw sigs lock proto reason now fl hw hp hex
    have hne : sigs ≠ [] := by
      rintro rfl
      simp at hex
    have hload : load_signer_from_p12 p12 pw = .ok p12.signer := by
      unfold load_signer_from_p12
      rw [if_pos ⟨by rw [hw], hp⟩]
    have hlen :
        ((if proto then
            create_protocol_page pdf sigs (get_signer_name_from_signer p12.signer)
              (get_certificate_info p12.signer) now
          else pdf) : Doc).pages.length =
          pdf.pages.length + (if proto then 1 else 0) := by
      cases proto <;> simp [create_protocol_page]
    obtain ⟨s', hmem, hbad⟩ := hex
    obtain ⟨e, he⟩ :=
      @signLoop_err (get_signer_name_from_signer p12.signer) reason now fl sigs 0
        (if proto then
          create_protocol_page pdf sigs (get_signer_name_from_signer p12.signer)
            (get_certificate_info p12.signer) now
        else pdf)
        ⟨s', hmem, by rw [hlen]; exact hbad⟩
    refine ⟨e, ?_⟩
    unfold sign_pdf_multiple
    rw [if_neg hne]
    simp only [hload]
    simp only [show sigs.enum = List.enumFrom 0 sigs from rfl, he]

/-- C3 witness: the amended out-of-range behaviour at a concrete input — a
placement targeting page 5 of a one-page document makes the run fail with a
wrapped error. -/
theorem C3_entry_validation_witness :
    p12c.well_formed = true ∧ ("pw" : String) = p12c.passphrase ∧
    (∃ s ∈ ([{ page := 5, x := 10, y := 20, type := some "full",
               width := none, height := none }] : List SigRequest),
      doc1.pages.length + (if false then 1 else 0) ≤ s.page) ∧
    ∃ e, sign_pdf_multiple doc1 p12c "pw"
        [{ page := 5, x := 10, y := 20, type := some "full",
           width := none, height := none }]
        false false reason1 now1 true = .error (.signFailed e) :=
  ⟨rfl, rfl, ⟨_, List.mem_cons_self _ _, by decide⟩,
    C3_entry_validation.2 doc1 p12c "pw" _ false false reason1 now1 true
      rfl rfl ⟨_, List.mem_cons_self _ _, by decide⟩⟩

/-- C1: on a base document with no pre-existing signature fields, a
successful run of `sign_pdf_multiple` over a placement list of length N
produces exactly N cryptographic signature fields, named sequentially
`Signature_{i+1}` for i = 0..N-1, and the field names of the run are
pairwise distinct. -/
theorem C1_signature_fields :
    ∀ (pdf : Doc) (p12 : P12Archive) (p12_password : String)
      (signatures : List SigRequest) (lock_after_signing add_protocol_page : Bool)
      (reason now : String) (fontLoads : Bool) (out : Doc),
      pdf.sigFields = [] →
      sign_pdf_multiple pdf p12 p12_password signatures lock_after_signing
          add_protocol_page reason now fontLoads = .ok out →
      out.sigFields.map SigField.name =
        (List.range signatures.length).map (fun i => "Signature_" ++ toString (i + 1)) ∧
      out.sigFields.length = signatures.length ∧
      (out.sigFields.map SigField.name).Nodup := by
  intro pdf p12 pw sigs lock proto reason now fl out hempty hok
  obtain ⟨signed, hloop, hout⟩ := sign_pdf_multiple_ok_elim hok
  have houtf : out.sigFields = signed.sigFields := by
    rw [hout]; cases lock <;> simp [lock_pdf_for_editing]
  have hd0 :
      ((if proto then
          create_protocol_page pdf sigs (get_signer_name_from_signer p12.signer)
            (get_certificate_info p12.signer) now
        else pdf) : Doc).sigFields = pdf.sigFields := by
    cases proto <;> simp [create_protocol_page]
  have henum : sigs.enum = List.enumFrom 0 sigs := rfl
  rw [henum] at hloop
  obtain ⟨hf, -, -, -⟩ := signLoop_ok_parts sigs 0 _ signed hloop
  rw [hd0, hempty, List.nil_append] at hf
  refine ⟨?_, ?_, ?_⟩
  · rw [houtf, hf, expectedFields_map_name reason sigs 0]
    simp
  · rw [houtf, hf, expectedFields_length reason sigs 0]
  · have hnd := signLoop_nodup sigs 0 _ signed hloop
    rw [houtf]
    exact hnd (by rw [hd0, hempty]; simp)

/-- C1 witness: the concrete two-placement run yields the fields
`Signature_1`, `Signature_2`, of length 2, with distinct names. -/
theorem C1_signature_fields_witness :
    out2.sigFields.map SigField.name =
      (List.range sigs2.length).map (fun i => "Signature_" ++ toString (i + 1)) ∧
    out2.sigFields.length = sigs2.length ∧
    (out2.sigFields.map SigField.name).Nodup :=
  C1_signature_fields doc2 p12c "pw" sigs2 false true reason1 now1 true out2
    rfl rfl

/-- C2: any successful run appends to the input history: first the protocol
page event (exactly once, when requested, before any per-placement
processing), then for each placement in order a render event immediately
followed by its signing event — so the visual mark renderer runs before the
cryptographic signer on each placement and the signer's output is the
renderer's input for the next placement — and finally the lock event (only
when requested, after all placements). -/
theorem C2_pipeline_ordering :
    ∀ (pdf : Doc) (p12 : P12Archive) (p12_password : String)
      (signatures : List SigRequest) (lock_after_signing add_protocol_page : Bool)
      (reason now : String) (fontLoads : Bool) (out : Doc),
      sign_pdf_multiple pdf p12 p12_password signatures lock_after_signing
          add_protocol_page reason now fontLoads = .ok out →
      out.history = pdf.history
        ++ (if add_protocol_page then [Event.protocolPage] else [])
        ++ loopEvents 0 signatures
        ++ (if lock_after_signing then [Event.lock] else []) := by
  intro pdf p12 pw sigs lock proto reason now fl out hok
  obtain ⟨signed, hloop, hout⟩ := sign_pdf_multiple_ok_elim hok
  have henum : sigs.enum = List.enumFrom 0 sigs := rfl
  rw [henum] at hloop
  obtain ⟨-, hh, -, -⟩ := signLoop_ok_parts sigs 0 _ signed hloop
  have hd0 :
      ((if proto then
          create_protocol_page pdf sigs (get_signer_name_from_signer p12.signer)
            (get_certificate_info p12.signer) now
        else pdf) : Doc).history =
        pdf.history ++ (if proto then [Event.protocolPage] else []) := by
    cases proto <;> simp [create_protocol_page]
  rw [hout]
  cases lock <;>
    simp [lock_pdf_for_editing, hh, hd0, List.append_assoc]

/-- C2 witness: the concrete run's history is the protocol event, then the
alternating render/sign events for the two placements. -/
theorem C2_pipeline_ordering_witness :
    out2.history = doc2.history
      ++ (if true then [Event.protocolPage] else [])
      ++ loopEvents 0 sigs2
      ++ (if false then [Event.lock] else []) :=
  C2_pipeline_ordering doc2 p12c "pw" sigs2 false true reason1 now1 true out2 rfl

/-- C8: on a successful run over a fresh document, the width and height used
by the visual mark renderer for placement i (recorded in its render event)
equal the width and height of the registered signature field's bounding box
for placement i, and that common size is the kind default (Signature 150×50,
Initials 50×35) unless the request supplies an override. -/
theorem C8_renderer_field_sync :
    ∀ (pdf : Doc) (p12 : P12Archive) (p12_password : String)
      (signatures : List SigRequest) (lock_after_signing add_protocol_page : Bool)
      (reason now : String) (fontLoads : Bool) (out : Doc),
      pdf.sigFields = [] →
      sign_pdf_multiple pdf p12 p12_password signatures lock_after_signing
          add_protocol_page reason now fontLoads = .ok out →
      ∀ (i : Nat) (sig : SigRequest), signatures[i]? = some sig →
        (out.sigFields.map SigField.box)[i]? =
          some (sig.x, sig.y, sig.x + resolved_width sig, sig.y + resolved_height sig) ∧
        Event.render sig.page (sig.type.getD "full") sig.x sig.y
            (resolved_width sig) (resolved_height sig) ∈ out.history ∧
        (sig.type.getD "full" = "initials" →
          resolved_width sig = sig.width.getD 50 ∧
          resolved_height sig = sig.height.getD 35) ∧
        (sig.type.getD "full" ≠ "initials" →
          resolved_width sig = sig.width.getD 150 ∧
          resolved_height sig = sig.height.getD 50) := by
  intro pdf p12 pw sigs lock proto reason now fl out hempty hok i sig hi
  obtain ⟨signed, hloop, hout⟩ := sign_pdf_multiple_ok_elim hok
  have henum : sigs.enum = List.enumFrom 0 sigs := rfl
  rw [henum] at hloop
  obtain ⟨hf, hh, -, -⟩ := signLoop_ok_parts sigs 0 _ signed hloop
  have hd0f :
      ((if proto then
          create_protocol_page pdf sigs (get_signer_name_from_signer p12.signer)
            (get_certificate_info p12.signer) now
        else pdf) : Doc).sigFields = pdf.sigFields := by
    cases proto <;> simp [create_protocol_page]
  have houtf : out.sigFields = expectedFields reason 0 sigs := by
    rw [hout]
    cases lock <;> simp [lock_pdf_for_editing, hf, hd0f, hempty]
  have houth : Event.render sig.page (sig.type.getD "full") sig.x sig.y
      (resolved_width sig) (resolved_height sig) ∈ out.history := by
    have hmem := loopEvents_render_mem sigs 0 i sig hi
    have : Event.render sig.page (sig.type.getD "full") sig.x sig.y
        (resolved_width sig) (resolved_height sig) ∈ signed.history := by
      rw [hh]
      exact List.mem_append_right _ hmem
    rw [hout]
    cases lock
    · simpa using this
    · simp [lock_pdf_for_editing, this]
  refine ⟨?_, houth, ?_, ?_⟩
  · rw [houtf, List.getElem?_map, expectedFields_getElem? reason sigs 0 i sig hi]
    rfl
  · intro ht
    unfold resolved_width resolved_height
    rw [if_pos ht, if_pos ht]
    exact ⟨rfl, rfl⟩
  · intro ht
    unfold resolved_width resolved_height
    rw [if_neg ht, if_neg ht]
    exact ⟨rfl, rfl⟩

/-- C8 witness: in the concrete run, placement 0 (kind `"full"`, no
override) has field box width 150 and height 50 matching its render event. -/
theorem C8_renderer_field_sync_witness :
    (out2.sigFields.map SigField.box)[0]? =
      some (sigA.x, sigA.y, sigA.x + resolved_width sigA, sigA.y + resolved_height sigA) ∧
    Event.render sigA.page (sigA.type.getD "full") sigA.x sigA.y
        (resolved_width sigA) (resolved_height sigA) ∈ out2.history ∧
    (sigA.type.getD "full" = "initials" →
      resolved_width sigA = sigA.width.getD 50 ∧
      resolved_height sigA = sigA.height.getD 35) ∧
    (sigA.type.getD "full" ≠ "initials" →
      resolved_width sigA = sigA.width.getD 150 ∧
      resolved_height sigA = sigA.height.getD 50) :=
  C8_renderer_field_sync doc2 p12c "pw" sigs2 false true reason1 now1 true out2
    rfl rfl 0 sigA rfl

/-- C5: `create_protocol_page` appends exactly one new page at the end of
the document (so the pages at every pre-existing index are unchanged and no
placement's target page index shifts); its page-count line shows the page
count of the input document, excluding the new page; every Signature-kind
placement is listed with its 1-based sequence number and 1-based page
number; and when initials are present, one consolidated line lists the
sorted, deduplicated, 1-based page numbers bearing initials. -/
theorem C5_protocol_page :
    ∀ (pdf : Doc) (signatures_info : List SigRequest) (signer_name : String)
      (cert_info : CertInfo) (now : String),
      (create_protocol_page pdf signatures_info signer_name cert_info now).pages =
        pdf.pages ++ [protocol_page_content pdf signatures_info signer_name cert_info now] ∧
      (∀ i, i < pdf.pages.length →
        (create_protocol_page pdf signatures_info signer_name cert_info now).pages[i]? =
          pdf.pages[i]?) ∧
      ("Number of pages: " ++ toString pdf.pages.length) ∈
        pageTexts (protocol_page_content pdf signatures_info signer_name cert_info now) ∧
      (∀ (i : Nat) (s : SigRequest), (full_sigs signatures_info)[i]? = some s →
        (toString (i + 1) ++ ". Digital signature - page " ++ toString (s.page + 1)) ∈
          pageTexts (protocol_page_content pdf signatures_info signer_name cert_info now)) ∧
      (initials_sigs signatures_info ≠ [] →
        ("Initials - pages: " ++
            joinComma ((initials_pages_sorted signatures_info).map toString)) ∈
          pageTexts (protocol_page_content pdf signatures_info signer_name cert_info now)) ∧
      List.Sorted (· ≤ ·) (initials_pages_sorted signatures_info) ∧
      (initials_pages_sorted signatures_info).Nodup ∧
      (∀ p, p ∈ initials_pages_sorted signatures_info ↔
        ∃ s ∈ initials_sigs signatures_info, s.page + 1 = p) := by
  intro pdf sigs sn cert now
  refine ⟨rfl, ?_, ?_, ?_, ?_, ?_, ?_, ?_⟩
  · intro i hi
    exact List.getElem?_append_left hi
  · rw [pageTexts_protocol]
    simp [doc_info_lines]
  · intro i s hi
    rw [pageTexts_protocol]
    have hline : (toString (i + 1) ++ ". Digital signature - page " ++
        toString (s.page + 1)) ∈ sig_list_lines sigs := by
      unfold sig_list_lines
      exact List.mem_map.mpr ⟨(i, s), mem_enum_of_getElem? _ i s hi, rfl⟩
    simp only [List.mem_append]
    tauto
  · intro hne
    rw [pageTexts_protocol]
    have hline : ("Initials - pages: " ++
        joinComma ((initials_pages_sorted sigs).map toString)) ∈
          initials_line_opt sigs := by
      unfold initials_line_opt
      rw [if_pos hne]
      exact List.mem_singleton.mpr rfl
    simp only [List.mem_append]
    tauto
  · exact List.sorted_insertionSort (· ≤ ·) _
  · exact (List.perm_insertionSort (· ≤ ·) _).nodup_iff.mpr (List.nodup_dedup _)
  · intro p
    unfold initials_pages_sorted
    rw [List.mem_insertionSort, List.mem_dedup, List.mem_map]

/-- C5 witness: on the concrete two-page document with one full signature on
page 0 and initials on page 1, the protocol page carries the page-count
line, the enumerated signature line, and the initials line. -/
theorem C5_protocol_page_witness :
    ("Number of pages: " ++ toString doc2.pages.length) ∈
      pageTexts (protocol_page_content doc2 sigs2 "Jan Novak"
        (get_certificate_info p12c.signer) now1) ∧
    (toString (0 + 1) ++ ". Digital signature - page " ++ toString (sigA.page + 1)) ∈
      pageTexts (protocol_page_content doc2 sigs2 "Jan Novak"
        (get_certificate_info p12c.signer) now1) ∧
    ("Initials - pages: " ++ joinComma ((initials_pages_sorted sigs2).map toString)) ∈
      pageTexts (protocol_page_content doc2 sigs2 "Jan Novak"
        (get_certificate_info p12c.signer) now1) :=
  ⟨(C5_protocol_page doc2 sigs2 "Jan Novak" (get_certificate_info p12c.signer) now1).2.2.1,
   (C5_protocol_page doc2 sigs2 "Jan Novak" (get_certificate_info p12c.signer) now1).2.2.2.1
      0 sigA (by decide),
   (C5_protocol_page doc2 sigs2 "Jan Novak" (get_certificate_info p12c.signer) now1).2.2.2.2.1
      (by decide)⟩

end ESignature
